import Mathlib

/-!
# Docker service manager: service lifecycle

A shallow embedding of `src/main.cpp`: the service catalog, the construction of the
`docker run` / `docker stop` / `docker rm` / `docker pull` command lines and the way each
operation reports its outcome.

Modelling conventions

* `std::string` is `String`; `std::vector<std::string>` is `List String`.
* `std::map<std::string, std::string>` is the list of its entries in iteration order, that
  is in ascending key order; `mapInsert` is `std::map::insert` and `mapOfList` is the
  construction of a map from a braced initializer list. Keys are compared with the order of
  `String`, which is lexicographic like `std::string::operator<`.
* The console streams and the calls of `std::system` are recorded in a `World`; a `Runtime`
  gives the status `std::system` returns for a command line, given the command lines that
  were run before it.
* A `std::stringstream` is the `String` written to it so far.
-/

namespace DockerManager

/-! ## Data model -/

/-- Entries of a `std::map<std::string, std::string>` in iteration order. -/
abbrev StdMap := List (String × String)

/-- The member `std::map::insert`: the entry is placed at its position in key order; when the
key is already present the map is left as it is. -/
def mapInsert (k v : String) : StdMap → StdMap
  | [] => [(k, v)]
  | e :: rest =>
    if k < e.1 then (k, v) :: e :: rest
    else if e.1 < k then e :: mapInsert k v rest
    else e :: rest

/-- Construction of a `std::map` from a braced initializer list: the entries are inserted one
after the other, in the order in which they are written. -/
def mapOfList (init : List (String × String)) : StdMap :=
  init.foldl (fun m e => mapInsert e.1 e.2 m) []

/-- The struct `ServiceDefinition`. -/
structure ServiceDefinition where
  id : String
  name : String
  description : String
  dockerImage : String
  ports : List String
  volumes : List String
  environment : StdMap
  command : String
  isLLM : Bool := false
deriving DecidableEq, Repr

/-- The global `predefinedServices`. -/
def predefinedServices : List ServiceDefinition :=
  [ { id := "web_server_1", name := "Simple Web Server", description := "An Nginx web server",
      dockerImage := "nginx:latest", ports := ["8080:80"],
      volumes := ["/data/web:/usr/share/nginx/html:ro"], environment := mapOfList [],
      command := "", isLLM := false },
    { id := "data_processor", name := "Data Processing Task",
      description := "A custom data processing container",
      dockerImage := "my_processor_image:v1.2", ports := [], volumes := [],
      environment := mapOfList [("API_KEY", "dummy_key"), ("INPUT_DIR", "/data")],
      command := "/app/run_processor.sh", isLLM := false },
    { id := "llm_model_a", name := "LLM Model A (Ollama)",
      description := "Runs a specific LLM using Ollama",
      dockerImage := "ollama/ollama", ports := ["11434:11434"],
      volumes := ["ollama_data:/root/.ollama"], environment := mapOfList [],
      command := "", isLLM := true },
    { id := "mongodb", name := "MongoDB Database", description := "MongoDB NoSQL database",
      dockerImage := "mongo:latest", ports := ["27017:27017"],
      volumes := ["mongo_data:/data/db"],
      environment := mapOfList [("MONGO_INITDB_ROOT_USERNAME", "admin"),
                                ("MONGO_INITDB_ROOT_PASSWORD", "password")],
      command := "", isLLM := false },
    { id := "redis_cache", name := "Redis Cache",
      description := "Redis in-memory data structure store",
      dockerImage := "redis:latest", ports := ["6379:6379"], volumes := ["redis_data:/data"],
      environment := mapOfList [], command := "", isLLM := false } ]

/-! ## Console and runtime -/

/-- What the program has written to `std::cout` and `std::cerr`, and the command lines it has
handed to `std::system`, oldest first. -/
structure World where
  cout : String
  cerr : String
  calls : List String
deriving DecidableEq, Repr

/-- The status `std::system` returns for a command line, given the command lines run before. -/
abbrev Runtime := List String → String → Int

/-- A world in which nothing has been written or run. -/
def World.start : World := { cout := "", cerr := "", calls := [] }

/-! ## Helper functions -/

/-- The function `findServiceById`: the first catalog entry with the given id, if any. -/
def findServiceById (id : String) : Option ServiceDefinition :=
  predefinedServices.find? (fun service => service.id == id)

/-- The function `runDockerCommand`. -/
def runDockerCommand (rt : Runtime) (command : String) (w : World) : Int × World :=
  let w1 := { w with cout := w.cout ++ "Executing Docker Command: " ++ command ++ "\n" }
  let result := rt w1.calls command
  let w2 := { w1 with calls := w1.calls ++ [command] }
  if result ≠ 0 then
    (result, { w2 with cerr := w2.cerr ++ "Docker command failed with exit code: "
                                ++ toString result ++ "\n" })
  else
    (result, w2)

/-- The command line `startService` writes to its string stream; `dockerCmd.str()`. -/
def startServiceCommand (service : ServiceDefinition) : String :=
  let dockerCmd := "docker run -d --name " ++ service.id
  let dockerCmd := service.ports.foldl (fun acc port => acc ++ " -p " ++ port) dockerCmd
  let dockerCmd := service.volumes.foldl (fun acc volume => acc ++ " -v " ++ volume) dockerCmd
  let dockerCmd := service.environment.foldl
    (fun acc env => acc ++ " -e " ++ env.1 ++ "=" ++ env.2) dockerCmd
  let dockerCmd := dockerCmd ++ " " ++ service.dockerImage
  if !service.command.isEmpty then dockerCmd ++ " " ++ service.command else dockerCmd

/-- The function `startService`. -/
def startService (rt : Runtime) (service : ServiceDefinition) (w : World) : Bool × World :=
  let r := runDockerCommand rt (startServiceCommand service) w
  (r.1 == 0, r.2)

/-- The function `stopService`. -/
def stopService (rt : Runtime) (serviceId : String) (w : World) : Bool × World :=
  let stopCmd := "docker stop " ++ serviceId
  let rmCmd := "docker rm " ++ serviceId
  let r1 := runDockerCommand rt stopCmd w
  let stopped := r1.1 == 0
  let r2 := runDockerCommand rt rmCmd r1.2
  let removed := r2.1 == 0
  (stopped || removed, r2.2)

/-- The function `pullDockerImage`. -/
def pullDockerImage (rt : Runtime) (image : String) (w : World) : Bool × World :=
  let w1 := { w with cout := w.cout ++ "Pulling Docker image: " ++ image ++ "\n" }
  let r := runDockerCommand rt ("docker pull " ++ image) w1
  (r.1 == 0, r.2)

/-! ## User interface -/

/-- The manipulator `std::setw` applied to the next string written: padding on the left. -/
def setw (n : Nat) (s : String) : String :=
  String.mk (List.replicate (n - s.length) ' ') ++ s

/-- One row of the table `displayServiceMenu` prints; `i` is the index in the catalog. -/
def serviceMenuRow (i : Nat) (service : ServiceDefinition) : String :=
  setw 5 (toString (i + 1)) ++ setw 20 service.id ++ setw 30 service.name
    ++ service.description ++ "\n"

/-- The loop of `displayServiceMenu`, from index `i` on. -/
def serviceMenuRows : Nat → List ServiceDefinition → String
  | _, [] => ""
  | i, service :: rest => serviceMenuRow i service ++ serviceMenuRows (i + 1) rest

/-- The function `displayServiceMenu`. -/
def displayServiceMenu (w : World) : World :=
  { w with cout := w.cout ++ "\n=== Available Services ===\n" ++ "\n"
      ++ setw 5 "No." ++ setw 20 "ID" ++ setw 30 "Name" ++ "Description" ++ "\n"
      ++ String.mk (List.replicate 80 '-') ++ "\n"
      ++ serviceMenuRows 0 predefinedServices
      ++ "\n" }

/-- The function `userStartService`; `serviceIndex` is the number read from `std::cin`. Past
the range check the index is in range, so the lookup of the entry always finds one. -/
def userStartService (rt : Runtime) (serviceIndex : Int) (w : World) : World :=
  let w := displayServiceMenu w
  let w := { w with cout := w.cout ++ "Enter the service number to start (1-"
                      ++ toString predefinedServices.length ++ "): " }
  if serviceIndex < 1 ∨ serviceIndex > (predefinedServices.length : Int) then
    { w with cerr := w.cerr ++ "Invalid selection. Please try again." ++ "\n" }
  else
    match predefinedServices[(serviceIndex - 1).toNat]? with
    | none => w
    | some service =>
      let w := { w with cout := w.cout ++ "Starting service: " ++ service.name ++ " ("
                          ++ service.id ++ ")" ++ "\n" }
      let r := startService rt service w
      if r.1 then
        { r.2 with cout := r.2.cout ++ "Service started successfully." ++ "\n" }
      else
        { r.2 with cerr := r.2.cerr ++ "Failed to start service." ++ "\n" }

/-- The function `userPullImage`; `imageName` is the line read by `std::getline`. -/
def userPullImage (rt : Runtime) (imageName : String) (w : World) : World :=
  let w := { w with cout := w.cout ++ "Enter the Docker image to pull (e.g., nginx:latest): " }
  let r := pullDockerImage rt imageName w
  if r.1 then
    { r.2 with cout := r.2.cout ++ "Image pulled successfully." ++ "\n" }
  else
    { r.2 with cerr := r.2.cerr ++ "Failed to pull image." ++ "\n" }

/-! ## The command interpreter

`std::system` hands its argument to the command interpreter. The two rules of the
interpreter's reading of a command line that matter here are modelled: an unquoted semicolon
ends a command, and unquoted blanks separate the words of a command. The model is meant for
command lines without quoting, expansion or any other operator.
-/

/-- Blank characters, which separate the words of a command. -/
def isBlank (c : Char) : Bool := c == ' ' || c == '\t' || c == '\n'

/-- The semicolon, which ends a command. -/
def isSemicolon (c : Char) : Bool := c == ';'

/-- Pieces of a line between the characters that satisfy `sep`, empty pieces included. -/
def splitAtSep (sep : Char → Bool) : List Char → List (List Char)
  | [] => [[]]
  | c :: cs =>
    if sep c then [] :: splitAtSep sep cs
    else
      match splitAtSep sep cs with
      | [] => [[c]]
      | piece :: pieces => (c :: piece) :: pieces

/-- Words of one command: the non-empty pieces between blanks. -/
def shellWords (cmd : List Char) : List String :=
  ((splitAtSep isBlank cmd).filter (fun piece => !piece.isEmpty)).map String.mk

/-- Commands of a command line, each with its words (the first word is the program run, the
others are its arguments). -/
def shellParse (line : String) : List (List String) :=
  (splitAtSep isSemicolon line.data).map shellWords

/-- Characters that the command interpreter takes literally wherever they stand in an
argument. -/
def plainChar (c : Char) : Bool :=
  c.isAlphanum || c == '_' || c == '-' || c == '.' || c == '/' || c == ':' || c == '='

/-- A string of plain characters only. -/
def plainChars (s : String) : Bool := s.data.all plainChar

/-- A non-empty string of plain characters. -/
def plainWord (s : String) : Bool := !s.data.isEmpty && plainChars s

/-- A definition like the first catalog entry, with one port mapping, given as argument. -/
def webServerWithPort (port : String) : ServiceDefinition :=
  { id := "web_server_1", name := "Simple Web Server", description := "An Nginx web server",
    dockerImage := "nginx:latest", ports := [port],
    volumes := ["/data/web:/usr/share/nginx/html:ro"], environment := mapOfList [],
    command := "", isLLM := false }

/-! ## The argument vector of the specification -/

/-- The options of the start invocation in the specification's words: one `-p` flag per port
mapping in the given order, then one `-v` flag per volume mapping in order, then one
`-e NAME=VALUE` per environment entry. -/
def startOptions (service : ServiceDefinition) : List String :=
  service.ports.flatMap (fun port => ["-p", port])
    ++ service.volumes.flatMap (fun volume => ["-v", volume])
    ++ service.environment.flatMap (fun env => ["-e", env.1 ++ "=" ++ env.2])

/-- The argument vector of the specification's `buildStart`: run detached, name the container
after the id, the options, the image reference, and the command override when it is not
empty. -/
def buildStart (service : ServiceDefinition) : List String :=
  ["run", "-d", "--name", service.id] ++ startOptions service ++ [service.dockerImage]
    ++ (if service.command.isEmpty then [] else [service.command])

/-- Concatenation of the strings `f x` for `x` in a list, in order. -/
def catMap {α : Type} (f : α → String) : List α → String
  | [] => ""
  | x :: xs => f x ++ catMap f xs

/-! ## Auxiliary facts -/

theorem find_of_nodup_ids (l : List ServiceDefinition)
    (hnd : (l.map (fun s => s.id)).Nodup) (service : ServiceDefinition) (hs : service ∈ l) :
    l.find? (fun x => x.id == service.id) = some service := by
  induction l with
  | nil => cases hs
  | cons a rest ih =>
    rw [List.map_cons, List.nodup_cons] at hnd
    rcases List.mem_cons.mp hs with h | h
    · subst h
      simp [List.find?_cons]
    · have hne : a.id ≠ service.id := by
        intro heq
        exact hnd.1 (heq ▸ List.mem_map_of_mem (fun s => s.id) h)
      have hb : (a.id == service.id) = false := by simpa using hne
      rw [List.find?_cons, hb]
      exact ih hnd.2 h

theorem find_none_of_absent (l : List ServiceDefinition) (id : String)
    (h : ∀ service ∈ l, service.id ≠ id) :
    l.find? (fun x => x.id == id) = none := by
  rw [List.find?_eq_none]
  intro x hx
  simpa using h x hx

theorem predefinedServices_ids :
    predefinedServices.map (fun s => s.id)
      = ["web_server_1", "data_processor", "llm_model_a", "mongodb", "redis_cache"] := rfl

theorem runDockerCommand_calls (rt : Runtime) (command : String) (w : World) :
    (runDockerCommand rt command w).2.calls = w.calls ++ [command] := by
  unfold runDockerCommand
  dsimp only
  split <;> rfl

theorem runDockerCommand_result (rt : Runtime) (command : String) (w : World) :
    (runDockerCommand rt command w).1 = rt w.calls command := by
  unfold runDockerCommand
  dsimp only
  split <;> rfl

theorem foldl_append_catMap {α : Type} (f : α → String) (xs : List α) (acc : String) :
    xs.foldl (fun acc x => acc ++ f x) acc = acc ++ catMap f xs := by
  induction xs generalizing acc with
  | nil => simp [catMap]
  | cons x xs ih => rw [List.foldl_cons, ih, catMap, String.append_assoc]

theorem catMap_append {α : Type} (f : α → String) (xs ys : List α) :
    catMap f (xs ++ ys) = catMap f xs ++ catMap f ys := by
  induction xs with
  | nil => simp [catMap]
  | cons x xs ih => rw [List.cons_append, catMap, catMap, ih, String.append_assoc]

theorem catMap_flag (flag : String) {α : Type} (g : α → String) (xs : List α) :
    catMap (fun a => " " ++ a) (xs.flatMap (fun x => [flag, g x]))
      = catMap (fun x => " " ++ flag ++ " " ++ g x) xs := by
  induction xs with
  | nil => simp [catMap]
  | cons x xs ih =>
    rw [List.flatMap_cons, catMap_append, ih]
    simp only [catMap, String.append_assoc, String.append_empty]

theorem intercalate_go_eq (sep acc : String) (xs : List String) :
    String.intercalate.go acc sep xs = acc ++ catMap (fun a => sep ++ a) xs := by
  induction xs generalizing acc with
  | nil => simp [String.intercalate.go, catMap]
  | cons x xs ih =>
    rw [String.intercalate.go, ih, catMap]
    simp only [String.append_assoc]

theorem intercalate_cons_eq (sep a : String) (xs : List String) :
    String.intercalate sep (a :: xs) = a ++ catMap (fun a => sep ++ a) xs := by
  rw [String.intercalate, intercalate_go_eq]

/-- The command line up to the environment loop, in closed form. -/
theorem startServiceCommand_eq (service : ServiceDefinition) :
    startServiceCommand service
      = "docker run -d --name " ++ service.id
          ++ catMap (fun port => " " ++ "-p" ++ " " ++ port) service.ports
          ++ catMap (fun volume => " " ++ "-v" ++ " " ++ volume) service.volumes
          ++ catMap (fun env => " " ++ "-e" ++ " " ++ (env.1 ++ "=" ++ env.2))
              service.environment
          ++ " " ++ service.dockerImage
          ++ (if service.command.isEmpty then "" else " " ++ service.command) := by
  have hp : (fun (acc port : String) => acc ++ " -p " ++ port)
      = (fun acc port => acc ++ (fun port => " " ++ "-p" ++ " " ++ port) port) := by
    funext acc port
    simp only [String.append_assoc]
    rfl
  have hv : (fun (acc volume : String) => acc ++ " -v " ++ volume)
      = (fun acc volume => acc ++ (fun volume => " " ++ "-v" ++ " " ++ volume) volume) := by
    funext acc volume
    simp only [String.append_assoc]
    rfl
  have he : (fun (acc : String) (env : String × String) => acc ++ " -e " ++ env.1 ++ "=" ++ env.2)
      = (fun acc env => acc ++ (fun (env : String × String) =>
          " " ++ "-e" ++ " " ++ (env.1 ++ "=" ++ env.2)) env) := by
    funext acc env
    simp only [String.append_assoc]
    rfl
  unfold startServiceCommand
  simp only [hp, hv, he, foldl_append_catMap]
  cases h : service.command.isEmpty <;> simp [String.append_assoc]

/-- The command line is the specification's argument vector, after the program name, joined
by single spaces. -/
theorem startServiceCommand_eq_intercalate (service : ServiceDefinition) :
    startServiceCommand service = String.intercalate " " ("docker" :: buildStart service) := by
  rw [startServiceCommand_eq, intercalate_cons_eq, buildStart, startOptions]
  simp only [catMap_append, catMap_flag (α := String) (g := fun x => x), catMap_flag]
  have hd : ∀ x : String, "docker run -d --name " ++ x
      = "docker" ++ (" " ++ ("run" ++ (" " ++ ("-d" ++ (" " ++ ("--name" ++ (" " ++ x))))))) := by
    intro x
    have h0 : "docker run -d --name "
        = "docker" ++ " " ++ "run" ++ " " ++ "-d" ++ " " ++ "--name" ++ " " := by
      decide
    rw [h0]
    simp only [String.append_assoc]
  cases h : service.command.isEmpty <;>
    simp only [catMap, String.append_assoc, String.append_empty, hd, if_true, if_false,
      Bool.false_eq_true]

/-! ### The environment map -/

theorem mem_mapInsert (k v : String) (m : StdMap) (e : String × String)
    (h : e ∈ mapInsert k v m) : e = (k, v) ∨ e ∈ m := by
  induction m with
  | nil => simpa [mapInsert] using h
  | cons a rest ih =>
    unfold mapInsert at h
    split at h
    · rcases List.mem_cons.mp h with h | h
      · exact Or.inl h
      · exact Or.inr h
    · split at h
      · rcases List.mem_cons.mp h with h | h
        · exact Or.inr (h ▸ List.mem_cons_self _ _)
        · rcases ih h with h | h
          · exact Or.inl h
          · exact Or.inr (List.mem_cons_of_mem _ h)
      · exact Or.inr h

theorem mem_mapInsert_of_mem (k v : String) (m : StdMap) (e : String × String)
    (h : e ∈ m) : e ∈ mapInsert k v m := by
  induction m with
  | nil => cases h
  | cons a rest ih =>
    unfold mapInsert
    split
    · exact List.mem_cons_of_mem _ h
    · split
      · rcases List.mem_cons.mp h with h | h
        · exact h ▸ List.mem_cons_self _ _
        · exact List.mem_cons_of_mem _ (ih h)
      · exact h

theorem key_mem_mapInsert (k v : String) (m : StdMap) :
    k ∈ (mapInsert k v m).map Prod.fst := by
  induction m with
  | nil => simp [mapInsert]
  | cons a rest ih =>
    unfold mapInsert
    split
    · simp
    · split
      · rw [List.map_cons]
        exact List.mem_cons_of_mem _ ih
      · rename_i h1 h2
        have hk : k = a.1 := le_antisymm (not_lt.mp h2) (not_lt.mp h1)
        simp [hk]

theorem mapInsert_sorted (k v : String) (m : StdMap)
    (h : (m.map Prod.fst).Pairwise (fun a b => a < b)) :
    ((mapInsert k v m).map Prod.fst).Pairwise (fun a b => a < b) := by
  induction m with
  | nil => simp [mapInsert]
  | cons a rest ih =>
    rw [List.map_cons, List.pairwise_cons] at h
    unfold mapInsert
    split
    · rename_i hlt
      rw [List.map_cons, List.map_cons, List.pairwise_cons, List.pairwise_cons]
      refine ⟨?_, h⟩
      intro b hb
      rcases List.mem_cons.mp hb with hb | hb
      · exact hb ▸ hlt
      · exact lt_trans hlt (h.1 b hb)
    · split
      · rename_i hlt
        rw [List.map_cons, List.pairwise_cons]
        refine ⟨?_, ih h.2⟩
        intro b hb
        rcases List.mem_map.mp hb with ⟨e, he, rfl⟩
        rcases mem_mapInsert k v rest e he with he | he
        · rw [he]
          exact hlt
        · exact h.1 e.1 (List.mem_map_of_mem Prod.fst he)
      · rw [List.map_cons, List.pairwise_cons]
        exact h

theorem foldl_mapInsert_sorted (init : List (String × String)) (m : StdMap)
    (h : (m.map Prod.fst).Pairwise (fun a b => a < b)) :
    ((init.foldl (fun m e => mapInsert e.1 e.2 m) m).map Prod.fst).Pairwise
      (fun a b => a < b) := by
  induction init generalizing m with
  | nil => exact h
  | cons e rest ih => exact ih _ (mapInsert_sorted e.1 e.2 m h)

theorem mem_foldl_mapInsert (init : List (String × String)) (m : StdMap)
    (e : String × String) (h : e ∈ init.foldl (fun m e => mapInsert e.1 e.2 m) m) :
    e ∈ m ∨ e ∈ init := by
  induction init generalizing m with
  | nil => exact Or.inl h
  | cons a rest ih =>
    rcases ih _ h with h | h
    · rcases mem_mapInsert a.1 a.2 m e h with h | h
      · exact Or.inr (h ▸ List.mem_cons_self _ _)
      · exact Or.inl h
    · exact Or.inr (List.mem_cons_of_mem _ h)

theorem key_mem_foldl_mapInsert (init : List (String × String)) (m : StdMap) (k : String)
    (h : k ∈ m.map Prod.fst ∨ k ∈ init.map Prod.fst) :
    k ∈ (init.foldl (fun m e => mapInsert e.1 e.2 m) m).map Prod.fst := by
  induction init generalizing m with
  | nil =>
    rcases h with h | h
    · exact h
    · cases h
  | cons a rest ih =>
    apply ih
    rcases h with h | h
    · left
      rcases List.mem_map.mp h with ⟨e, he, rfl⟩
      exact List.mem_map_of_mem Prod.fst (mem_mapInsert_of_mem a.1 a.2 m e he)
    · rw [List.map_cons] at h
      rcases List.mem_cons.mp h with h | h
      · left
        rw [h]
        exact key_mem_mapInsert a.1 a.2 m
      · exact Or.inr h

theorem mongo_keys_lt : "MONGO_INITDB_ROOT_PASSWORD" < "MONGO_INITDB_ROOT_USERNAME" := by
  rw [String.lt_iff_toList_lt]
  decide

theorem mongo_environment :
    mapOfList [("MONGO_INITDB_ROOT_USERNAME", "admin"),
               ("MONGO_INITDB_ROOT_PASSWORD", "password")]
      = [("MONGO_INITDB_ROOT_PASSWORD", "password"),
         ("MONGO_INITDB_ROOT_USERNAME", "admin")] := by
  have h := mongo_keys_lt
  simp only [mapOfList, List.foldl, mapInsert, h, if_true]

/-! ### The command interpreter -/

theorem plainChar_not_blank (c : Char) (h : plainChar c = true) : isBlank c = false := by
  cases hb : isBlank c with
  | false => rfl
  | true =>
    exfalso
    simp only [isBlank, Bool.or_eq_true, beq_iff_eq] at hb
    rcases hb with (hb | hb) | hb <;> (subst hb; revert h; decide)

theorem plainChar_not_semicolon (c : Char) (h : plainChar c = true) : isSemicolon c = false := by
  cases hb : isSemicolon c with
  | false => rfl
  | true =>
    exfalso
    simp only [isSemicolon, beq_iff_eq] at hb
    subst hb
    revert h
    decide

theorem splitAtSep_of_none (sep : Char → Bool) (l : List Char)
    (h : ∀ c ∈ l, sep c = false) : splitAtSep sep l = [l] := by
  induction l with
  | nil => rfl
  | cons c cs ih =>
    have hc : sep c = false := h c (List.mem_cons_self _ _)
    have hcs : splitAtSep sep cs = [cs] := ih (fun a ha => h a (List.mem_cons_of_mem _ ha))
    simp [splitAtSep, hc, hcs]

theorem splitAtSep_append_sep (sep : Char → Bool) (word : List Char) (c : Char)
    (rest : List Char) (hw : ∀ a ∈ word, sep a = false) (hc : sep c = true) :
    splitAtSep sep (word ++ c :: rest) = word :: splitAtSep sep rest := by
  induction word with
  | nil => simp [splitAtSep, hc]
  | cons a as ih =>
    have ha : sep a = false := hw a (List.mem_cons_self _ _)
    have has := ih (fun b hb => hw b (List.mem_cons_of_mem _ hb))
    simp [splitAtSep, ha, has]

theorem splitAtSep_blank_words (word : String) (words : List String)
    (h : ∀ x ∈ word :: words, plainWord x = true) :
    splitAtSep isBlank (word.data ++ (catMap (fun a => " " ++ a) words).data)
      = word.data :: words.map (fun x => x.data) := by
  induction words generalizing word with
  | nil =>
    have hw := h word (List.mem_cons_self _ _)
    simp only [plainWord, plainChars, Bool.and_eq_true, List.all_eq_true] at hw
    simp only [catMap, List.map_nil]
    rw [List.append_nil]
    exact splitAtSep_of_none isBlank word.data (fun c hc => plainChar_not_blank c (hw.2 c hc))
  | cons x xs ih =>
    have hw := h word (List.mem_cons_self _ _)
    simp only [plainWord, plainChars, Bool.and_eq_true, List.all_eq_true] at hw
    have hsp : (" " : String).data = [' '] := rfl
    rw [catMap, String.data_append, String.data_append, hsp, List.singleton_append,
      List.cons_append]
    rw [splitAtSep_append_sep isBlank word.data ' ' _
      (fun c hc => plainChar_not_blank c (hw.2 c hc)) (by decide)]
    rw [ih x (fun y hy => h y (List.mem_cons_of_mem _ hy)), List.map_cons]

theorem no_semicolon_in_words (word : String) (words : List String)
    (h : ∀ x ∈ word :: words, plainWord x = true) :
    ∀ c ∈ word.data ++ (catMap (fun a => " " ++ a) words).data, isSemicolon c = false := by
  induction words generalizing word with
  | nil =>
    have hw := h word (List.mem_cons_self _ _)
    simp only [plainWord, plainChars, Bool.and_eq_true, List.all_eq_true] at hw
    intro c hc
    have hemp : ("" : String).data = [] := rfl
    rw [catMap, hemp, List.append_nil] at hc
    exact plainChar_not_semicolon c (hw.2 c hc)
  | cons x xs ih =>
    have hw := h word (List.mem_cons_self _ _)
    simp only [plainWord, plainChars, Bool.and_eq_true, List.all_eq_true] at hw
    have hsp : (" " : String).data = [' '] := rfl
    intro c hc
    rw [catMap, String.data_append, String.data_append, hsp, List.singleton_append] at hc
    rcases List.mem_append.mp hc with hc | hc
    · exact plainChar_not_semicolon c (hw.2 c hc)
    · rcases List.mem_cons.mp hc with hc | hc
      · rw [hc]
        decide
      · exact ih x (fun y hy => h y (List.mem_cons_of_mem _ hy)) c hc

/-- A command line made of plain words joined by single spaces is read as one command with
exactly these words. -/
theorem shellParse_intercalate (word : String) (words : List String)
    (h : ∀ x ∈ word :: words, plainWord x = true) :
    shellParse (String.intercalate " " (word :: words)) = [word :: words] := by
  have hne : ∀ x ∈ word :: words, (!x.data.isEmpty) = true := by
    intro x hx
    have hw := h x hx
    simp only [plainWord, Bool.and_eq_true] at hw
    exact hw.1
  unfold shellParse
  rw [intercalate_cons_eq, String.data_append,
    splitAtSep_of_none isSemicolon _ (no_semicolon_in_words word words h)]
  simp only [List.map_cons, List.map_nil, shellWords]
  rw [splitAtSep_blank_words word words h]
  have hfilter : List.filter (fun piece => !piece.isEmpty)
      (word.data :: words.map (fun x => x.data)) = (word :: words).map (fun x => x.data) := by
    rw [← List.map_cons (fun x : String => x.data) word words, List.filter_eq_self]
    intro piece hp
    rcases List.mem_map.mp hp with ⟨x, hx, rfl⟩
    exact hne x hx
  rw [hfilter, List.map_map]
  congr 1
  exact List.map_id _

theorem plainWord_append_eq (name value : String) (hn : plainChars name = true)
    (hv : plainChars value = true) : plainWord (name ++ "=" ++ value) = true := by
  simp only [plainChars, List.all_eq_true] at hn hv
  have heq : ("=" : String).data = ['='] := rfl
  simp only [plainWord, plainChars, Bool.and_eq_true, List.all_eq_true, String.data_append, heq]
  constructor
  · simp
  · intro c hc
    rcases List.mem_append.mp hc with hc | hc
    · rcases List.mem_append.mp hc with hc | hc
      · exact hn c hc
      · rw [List.mem_singleton.mp hc]
        decide
    · exact hv c hc

/-! ## Catalog lookup -/

/-- C1: the ids of the predefined catalog are pairwise distinct; `findServiceById id` returns
the catalog entry whose id is `id` whenever there is one, and returns nothing when no catalog
entry has the id `id`. -/
theorem findServiceById_correct (id : String) :
    (predefinedServices.map (fun s => s.id)).Nodup ∧
    (∀ service ∈ predefinedServices, service.id = id → findServiceById id = some service) ∧
    ((∀ service ∈ predefinedServices, service.id ≠ id) → findServiceById id = none) := by
  have hnd : (predefinedServices.map (fun s => s.id)).Nodup := by
    rw [predefinedServices_ids]; decide
  refine ⟨hnd, ?_, ?_⟩
  · intro service hs hid
    subst hid
    exact find_of_nodup_ids predefinedServices hnd service hs
  · intro h
    exact find_none_of_absent predefinedServices id h

/-- Witness of C1 at the ids "redis_cache" (present) and "nonexistent" (absent). -/
theorem findServiceById_correct_witness :
    findServiceById "redis_cache"
        = some { id := "redis_cache", name := "Redis Cache",
                 description := "Redis in-memory data structure store",
                 dockerImage := "redis:latest", ports := ["6379:6379"],
                 volumes := ["redis_data:/data"], environment := [], command := "",
                 isLLM := false } ∧
      findServiceById "nonexistent" = none :=
  ⟨(findServiceById_correct "redis_cache").2.1 _ (by simp [predefinedServices, mapOfList]) rfl,
   (findServiceById_correct "nonexistent").2.2 (by
      intro service hs
      have hmem : service.id ∈ predefinedServices.map (fun s => s.id) :=
        List.mem_map_of_mem (fun s => s.id) hs
      rw [predefinedServices_ids] at hmem
      intro heq
      rw [heq] at hmem
      revert hmem
      decide)⟩

/-! ## Stopping a service -/

/-- C4: `stopService` reports success exactly when the status of the stop command is 0 or the
status of the remove command is 0, whatever the service id and whatever the runtime answers. -/
theorem stopService_success_iff (rt : Runtime) (serviceId : String) (w : World) :
    (stopService rt serviceId w).1 = true ↔
      (rt w.calls ("docker stop " ++ serviceId) = 0 ∨
       rt (w.calls ++ ["docker stop " ++ serviceId]) ("docker rm " ++ serviceId) = 0) := by
  unfold stopService
  simp only [runDockerCommand_result, runDockerCommand_calls, Bool.or_eq_true, beq_iff_eq]

/-- C5: `stopService` hands exactly two command lines to the runtime, the stop of the named
container and then its removal, whatever the runtime answers to the first. -/
theorem stopService_calls (rt : Runtime) (serviceId : String) (w : World) :
    (stopService rt serviceId w).2.calls
      = w.calls ++ ["docker stop " ++ serviceId, "docker rm " ++ serviceId] := by
  unfold stopService
  simp only [runDockerCommand_calls, List.append_assoc, List.singleton_append]

/-! ## Pulling an image -/

/-- C6, as the code behaves: `pullDockerImage` validates nothing. For every image reference,
blank or not, it hands the runtime exactly one command line, "docker pull " followed by the
reference as given, and reports success exactly when that command's status is 0;
`userPullImage` passes the line it read to it unchanged, makes that one call and no other,
and reports the same verdict: when the status is 0 it writes "Image pulled successfully." to
`std::cout` and nothing to `std::cerr`, and otherwise it writes the failed status and
"Failed to pull image." to `std::cerr` and no success message. -/
theorem pullDockerImage_always_invokes (rt : Runtime) (image : String) (w : World) :
    (pullDockerImage rt image w).2.calls = w.calls ++ ["docker pull " ++ image] ∧
    ((pullDockerImage rt image w).1 = true ↔ rt w.calls ("docker pull " ++ image) = 0) ∧
    (userPullImage rt image w).calls = w.calls ++ ["docker pull " ++ image] ∧
    userPullImage rt image w
      = (if rt w.calls ("docker pull " ++ image) = 0 then
          { cout := w.cout ++ "Enter the Docker image to pull (e.g., nginx:latest): "
              ++ "Pulling Docker image: " ++ image ++ "\n"
              ++ "Executing Docker Command: " ++ ("docker pull " ++ image) ++ "\n"
              ++ "Image pulled successfully." ++ "\n",
            cerr := w.cerr,
            calls := w.calls ++ ["docker pull " ++ image] }
        else
          { cout := w.cout ++ "Enter the Docker image to pull (e.g., nginx:latest): "
              ++ "Pulling Docker image: " ++ image ++ "\n"
              ++ "Executing Docker Command: " ++ ("docker pull " ++ image) ++ "\n",
            cerr := w.cerr ++ "Docker command failed with exit code: "
              ++ toString (rt w.calls ("docker pull " ++ image)) ++ "\n"
              ++ "Failed to pull image." ++ "\n",
            calls := w.calls ++ ["docker pull " ++ image] }) := by
  refine ⟨?_, ?_, ?_, ?_⟩
  · unfold pullDockerImage
    simp only [runDockerCommand_calls]
  · unfold pullDockerImage
    simp only [runDockerCommand_result, beq_iff_eq]
  · unfold userPullImage pullDockerImage
    dsimp only
    split <;> simp only [runDockerCommand_calls]
  · unfold userPullImage pullDockerImage runDockerCommand
    dsimp only
    by_cases h : rt w.calls ("docker pull " ++ image) = 0
    · simp [h]
    · simp [h]

/-- C6 fails as stated: with a runtime that answers 0, pulling "" and pulling "   " each run
one command and report success, and `userPullImage` reports no failure. -/
theorem pullDockerImage_blank_runs_command :
    pullDockerImage (fun _ _ => 0) "" World.start
        = (true, { cout := "Pulling Docker image: \nExecuting Docker Command: docker pull \n",
                   cerr := "", calls := ["docker pull "] }) ∧
      (pullDockerImage (fun _ _ => 0) "   " World.start).1 = true ∧
      (pullDockerImage (fun _ _ => 0) "   " World.start).2.calls = ["docker pull    "] ∧
      (userPullImage (fun _ _ => 0) "   " World.start).calls = ["docker pull    "] ∧
      (userPullImage (fun _ _ => 0) "   " World.start).cerr = "" := by
  decide

/-! ## Starting a service from the menu -/

/-- C8: a selection outside 1..(catalog size) makes `userStartService` write the failure
message to `std::cerr` and return without handing anything to the runtime; and no catalog
entry has the id "nonexistent". -/
theorem userStartService_invalid_selection (rt : Runtime) (serviceIndex : Int) (w : World)
    (h : serviceIndex < 1 ∨ serviceIndex > (predefinedServices.length : Int)) :
    (userStartService rt serviceIndex w).calls = w.calls ∧
    (userStartService rt serviceIndex w).cerr
      = w.cerr ++ "Invalid selection. Please try again.\n" ∧
    (userStartService rt serviceIndex w).cout
      = (displayServiceMenu w).cout ++ "Enter the service number to start (1-5): " ∧
    findServiceById "nonexistent" = none := by
  have e1 : "Invalid selection. Please try again." ++ "\n"
      = "Invalid selection. Please try again.\n" := by decide
  have e2 : "Enter the service number to start (1-" ++ (toString predefinedServices.length
      ++ "): ") = "Enter the service number to start (1-5): " := by decide
  unfold userStartService
  simp only [h, if_true]
  refine ⟨rfl, ?_, ?_, by decide⟩
  · show w.cerr ++ "Invalid selection. Please try again." ++ "\n" = _
    rw [String.append_assoc, e1]
  · rw [String.append_assoc, String.append_assoc, e2]

/-- Witness of C8 at the selection 6, with a runtime that always answers 0. -/
theorem userStartService_invalid_selection_witness :
    (userStartService (fun _ _ => 0) 6 World.start).calls = [] ∧
      (userStartService (fun _ _ => 0) 6 World.start).cerr
        = "Invalid selection. Please try again.\n" :=
  have h := userStartService_invalid_selection (fun _ _ => 0) 6 World.start (by decide)
  ⟨h.1, h.2.1⟩

/-! ## The start command -/

/-- C2: the catalog entry "redis_cache" is the fifth entry, with image "redis:latest", one
port, one volume, no environment and no command override; starting it, directly or through
the menu, hands the runtime the single command line
"docker run -d --name redis_cache -p 6379:6379 -v redis_data:/data redis:latest", which the
command interpreter reads as one command, the program docker with exactly the nine arguments
run, -d, --name, redis_cache, -p, 6379:6379, -v, redis_data:/data, redis:latest. -/
theorem startService_redis_cache (rt : Runtime) (w : World) :
    ∃ service : ServiceDefinition,
      findServiceById "redis_cache" = some service ∧
      predefinedServices[4]? = some service ∧
      service.dockerImage = "redis:latest" ∧ service.ports = ["6379:6379"] ∧
      service.volumes = ["redis_data:/data"] ∧ service.environment = [] ∧
      service.command = "" ∧
      (startService rt service w).2.calls = w.calls ++
        ["docker run -d --name redis_cache -p 6379:6379 -v redis_data:/data redis:latest"] ∧
      (userStartService rt 5 w).calls = w.calls ++
        ["docker run -d --name redis_cache -p 6379:6379 -v redis_data:/data redis:latest"] ∧
      shellParse "docker run -d --name redis_cache -p 6379:6379 -v redis_data:/data redis:latest"
        = [["docker", "run", "-d", "--name", "redis_cache", "-p", "6379:6379", "-v",
            "redis_data:/data", "redis:latest"]] := by
  have hcmd : startServiceCommand
      { id := "redis_cache", name := "Redis Cache",
        description := "Redis in-memory data structure store",
        dockerImage := "redis:latest", ports := ["6379:6379"],
        volumes := ["redis_data:/data"], environment := [], command := "", isLLM := false }
      = "docker run -d --name redis_cache -p 6379:6379 -v redis_data:/data redis:latest" := by
    decide
  refine ⟨{ id := "redis_cache", name := "Redis Cache",
            description := "Redis in-memory data structure store",
            dockerImage := "redis:latest", ports := ["6379:6379"],
            volumes := ["redis_data:/data"], environment := [], command := "",
            isLLM := false }, by decide, by decide, rfl, rfl, rfl, rfl, rfl, ?_, ?_, by decide⟩
  · unfold startService
    simp only [runDockerCommand_calls, hcmd]
  · have hsel : ¬ ((5 : Int) < 1 ∨ (5 : Int) > (predefinedServices.length : Int)) := by decide
    have hget : predefinedServices[((5 : Int) - 1).toNat]?
        = some { id := "redis_cache", name := "Redis Cache",
                 description := "Redis in-memory data structure store",
                 dockerImage := "redis:latest", ports := ["6379:6379"],
                 volumes := ["redis_data:/data"], environment := [], command := "",
                 isLLM := false } := by decide
    unfold userStartService
    simp only [hsel, if_false, hget]
    unfold startService displayServiceMenu
    split <;> simp only [runDockerCommand_calls, hcmd]

/-- C3: the command line `startService` hands to the runtime depends on the definition only
(not on the runtime or on what happened before), and it is the single-space join of: docker
run -d --name and the id; then, for each port in the definition's order, -p and the port;
then, for each volume in order, -v and the volume; then, for each environment entry, -e and
NAME=VALUE; then the image and, when not empty, the command override. -/
theorem startService_command_layout (rt : Runtime) (service : ServiceDefinition) (w : World) :
    (startService rt service w).2.calls = w.calls ++ [startServiceCommand service] ∧
    startServiceCommand service = String.intercalate " "
      (["docker", "run", "-d", "--name", service.id]
        ++ service.ports.flatMap (fun port => ["-p", port])
        ++ service.volumes.flatMap (fun volume => ["-v", volume])
        ++ service.environment.flatMap (fun env => ["-e", env.1 ++ "=" ++ env.2])
        ++ service.dockerImage :: (if service.command.isEmpty then [] else [service.command])) := by
  constructor
  · unfold startService
    simp only [runDockerCommand_calls]
  · rw [startServiceCommand_eq_intercalate, buildStart, startOptions]
    simp only [List.cons_append, List.nil_append, List.append_assoc, List.singleton_append]

/-- C10: in the command line built by `startService`, what precedes the image reference is
exactly the name and all the -p, -v and -e options; the image reference is followed by
nothing when the command override is empty, and by a space and the override, and nothing
more, when it is not. -/
theorem startService_command_tail (service : ServiceDefinition) :
    startServiceCommand service
      = String.intercalate " " (["docker", "run", "-d", "--name", service.id]
            ++ startOptions service)
          ++ " " ++ service.dockerImage
          ++ (if service.command.isEmpty then "" else " " ++ service.command) := by
  rw [startServiceCommand_eq_intercalate, buildStart]
  simp only [List.cons_append, List.nil_append, intercalate_cons_eq, catMap_append, catMap]
  cases h : service.command.isEmpty <;>
    simp only [catMap, String.append_assoc, String.append_empty, if_true, if_false,
      Bool.false_eq_true]

/-! ## Order of the environment entries -/

/-- C9, as the code behaves: the environment of a definition is a `std::map`, so whatever the
order in which its entries are written, the -e NAME=VALUE entries of the start command follow
the map, in strictly ascending order of NAME; every entry of the map is one of the entries
written and every name written is in the map. For the catalog entry "mongodb", whose entries
are written USERNAME first, the map is PASSWORD first. -/
theorem startService_environment_order (service : ServiceDefinition)
    (init : List (String × String)) :
    startServiceCommand { service with environment := mapOfList init }
      = String.intercalate " "
          (["docker", "run", "-d", "--name", service.id]
            ++ service.ports.flatMap (fun port => ["-p", port])
            ++ service.volumes.flatMap (fun volume => ["-v", volume])
            ++ (mapOfList init).flatMap (fun env => ["-e", env.1 ++ "=" ++ env.2])
            ++ service.dockerImage ::
                (if service.command.isEmpty then [] else [service.command])) ∧
    ((mapOfList init).map Prod.fst).Pairwise (fun a b => a < b) ∧
    (∀ env ∈ mapOfList init, env ∈ init) ∧
    (∀ env ∈ init, env.1 ∈ (mapOfList init).map Prod.fst) ∧
    mapOfList [("MONGO_INITDB_ROOT_USERNAME", "admin"),
               ("MONGO_INITDB_ROOT_PASSWORD", "password")]
      = [("MONGO_INITDB_ROOT_PASSWORD", "password"),
         ("MONGO_INITDB_ROOT_USERNAME", "admin")] := by
  refine ⟨?_, ?_, ?_, ?_, ?_⟩
  · rw [startServiceCommand_eq_intercalate, buildStart, startOptions]
    simp only [List.cons_append, List.nil_append, List.append_assoc, List.singleton_append]
  · exact foldl_mapInsert_sorted init [] List.Pairwise.nil
  · intro env henv
    rcases mem_foldl_mapInsert init [] env henv with h | h
    · cases h
    · exact h
  · intro env henv
    exact key_mem_foldl_mapInsert init [] env.1 (Or.inr (List.mem_map_of_mem Prod.fst henv))
  · exact mongo_environment

/-- C9 fails as stated: the catalog entry "mongodb" is written with USERNAME before PASSWORD,
and its start command has PASSWORD before USERNAME. -/
theorem mongodb_environment_not_insertion_order :
    (predefinedServices[3]?).map (fun s => s.environment)
        = some (mapOfList [("MONGO_INITDB_ROOT_USERNAME", "admin"),
                           ("MONGO_INITDB_ROOT_PASSWORD", "password")]) ∧
      (findServiceById "mongodb").map startServiceCommand
        = some ("docker run -d --name mongodb -p 27017:27017 -v mongo_data:/data/db"
            ++ " -e MONGO_INITDB_ROOT_PASSWORD=password -e MONGO_INITDB_ROOT_USERNAME=admin"
            ++ " mongo:latest") := by
  have henv := mongo_environment
  have hfind : findServiceById "mongodb"
      = some { id := "mongodb", name := "MongoDB Database",
               description := "MongoDB NoSQL database", dockerImage := "mongo:latest",
               ports := ["27017:27017"], volumes := ["mongo_data:/data/db"],
               environment := mapOfList [("MONGO_INITDB_ROOT_USERNAME", "admin"),
                                         ("MONGO_INITDB_ROOT_PASSWORD", "password")],
               command := "", isLLM := false } := by
    rfl
  refine ⟨rfl, ?_⟩
  rw [hfind, henv]
  decide

/-! ## Values with blanks or metacharacters -/

/-- C7, as the code behaves: when the id, the image, every port and every volume are non-empty
words of plain characters (letters, digits, and the characters _ - . / : =), every
environment name and value consists of plain characters, and the command override is empty or
such a word, the command interpreter reads the start command as one command, the program
docker with exactly the arguments run, -d, --name, the id, -p and each port, -v and each
volume, -e and each NAME=VALUE, the image and the override: each value is one literal
argument. -/
theorem startService_plain_values_single_arguments (service : ServiceDefinition)
    (hid : plainWord service.id = true)
    (hports : ∀ port ∈ service.ports, plainWord port = true)
    (hvolumes : ∀ volume ∈ service.volumes, plainWord volume = true)
    (henv : ∀ env ∈ service.environment, plainChars env.1 = true ∧ plainChars env.2 = true)
    (himage : plainWord service.dockerImage = true)
    (hcommand : service.command.isEmpty = true ∨ plainWord service.command = true) :
    shellParse (startServiceCommand service)
      = [["docker", "run", "-d", "--name", service.id]
          ++ service.ports.flatMap (fun port => ["-p", port])
          ++ service.volumes.flatMap (fun volume => ["-v", volume])
          ++ service.environment.flatMap (fun env => ["-e", env.1 ++ "=" ++ env.2])
          ++ service.dockerImage ::
              (if service.command.isEmpty then [] else [service.command])] := by
  have hflag : ∀ (flag : String) (values : List String), plainWord flag = true →
      (∀ v ∈ values, plainWord v = true) →
      ∀ x ∈ values.flatMap (fun v => [flag, v]), plainWord x = true := by
    intro flag values hf hv x hx
    rcases List.mem_flatMap.mp hx with ⟨v, hvmem, hxv⟩
    rcases List.mem_cons.mp hxv with hxv | hxv
    · rw [hxv]
      exact hf
    · rw [List.mem_singleton.mp hxv]
      exact hv v hvmem
  have hall : ∀ x ∈ "docker" :: buildStart service, plainWord x = true := by
    intro x hx
    rcases List.mem_cons.mp hx with hx | hx
    · rw [hx]
      decide
    · unfold buildStart startOptions at hx
      rcases List.mem_append.mp hx with hx | hx
      · rcases List.mem_append.mp hx with hx | hx
        · rcases List.mem_append.mp hx with hx | hx
          · simp only [List.mem_cons, List.mem_singleton, List.not_mem_nil, or_false] at hx
            rcases hx with hx | hx | hx | hx
            · rw [hx]
              decide
            · rw [hx]
              decide
            · rw [hx]
              decide
            · rw [hx]
              exact hid
          · rcases List.mem_append.mp hx with hx | hx
            · rcases List.mem_append.mp hx with hx | hx
              · exact hflag "-p" service.ports (by decide) hports x hx
              · exact hflag "-v" service.volumes (by decide) hvolumes x hx
            · rcases List.mem_flatMap.mp hx with ⟨env, hemem, hxe⟩
              rcases List.mem_cons.mp hxe with hxe | hxe
              · rw [hxe]
                decide
              · rw [List.mem_singleton.mp hxe]
                exact plainWord_append_eq env.1 env.2 (henv env hemem).1 (henv env hemem).2
        · rw [List.mem_singleton.mp hx]
          exact himage
      · cases hce : service.command.isEmpty with
        | true =>
          rw [hce] at hx
          simp at hx
        | false =>
          rw [hce] at hx
          simp only [Bool.false_eq_true, if_false, List.mem_singleton] at hx
          rcases hcommand with hc | hc
          · rw [hce] at hc
            cases hc
          · rw [hx]
            exact hc
  rw [startServiceCommand_eq_intercalate, shellParse_intercalate "docker" (buildStart service) hall,
    buildStart, startOptions]
  simp only [List.cons_append, List.nil_append, List.append_assoc, List.singleton_append]

/-- Witness of C7 at the first catalog entry. -/
theorem startService_plain_values_single_arguments_witness :
    shellParse (startServiceCommand (webServerWithPort "8080:80"))
      = [["docker", "run", "-d", "--name", "web_server_1", "-p", "8080:80", "-v",
          "/data/web:/usr/share/nginx/html:ro", "nginx:latest"]] :=
  startService_plain_values_single_arguments (webServerWithPort "8080:80")
    (by decide) (by decide) (by decide) (by decide) (by decide) (Or.inl (by decide))

/-- C7 fails as stated: with the port value "; rm -rf /" the command interpreter reads two
commands, docker with five arguments and then rm with five arguments; with the port value
"8080:80" it reads one command, docker with nine arguments. -/
theorem startService_metacharacters_not_literal :
    shellParse (startServiceCommand (webServerWithPort "; rm -rf /"))
        = [["docker", "run", "-d", "--name", "web_server_1", "-p"],
           ["rm", "-rf", "/", "-v", "/data/web:/usr/share/nginx/html:ro", "nginx:latest"]] ∧
      shellParse (startServiceCommand (webServerWithPort "8080:80"))
        = [["docker", "run", "-d", "--name", "web_server_1", "-p", "8080:80", "-v",
            "/data/web:/usr/share/nginx/html:ro", "nginx:latest"]] := by
  decide

end DockerManager
